import Mathlib

/-!
# Loan Prepayment Simulator — amortization engine, shallow embedding

Embedding of the amortization schedule computation of
`src/src/App.js` (SuharshTyagii/Loan-Prepayment-Simulator).

The source file contains several concatenated revisions of the
`LoanCalculator` component.  Two of them are cited by the checked claims
and are embedded here:

* the revision at lines 118–152 (called `V1` below): per-period base
  payment `emi * (periodsPerYear / 12)`, recurring prepayment added raw,
  warning condition `emi < balance * ratePerPeriod`;
* the revision at lines 1400–1444 (unsuffixed below, the last one in the
  file): per-period base payment `emi * 12 / periodsPerYear`, recurring
  prepayment `prepayment * 12 / periodsPerYear`, warning condition
  `paymentBase < balance * ratePerPeriod`.

JavaScript numbers are modelled as exact rationals (the spec explicitly
renounces bit-exact floating-point parity); `+x.toFixed(2)` is modelled
as round-to-nearest at 2 decimal places (`round2`, ties rounded up).
The `while (balance > 0 && period < periodCap)` loop is modelled by
structural recursion on the remaining fuel `periodCap - period`, which
also makes termination a theorem by construction.
-/

/-- JS `+x.toFixed(2)`: round to 2 decimal places. -/
def round2 (x : ℚ) : ℚ := (round (x * 100) : ℚ) / 100

/-- One emitted row of the schedule (the object pushed into `data`). -/
structure PeriodRecord where
  period : ℕ
  interest : ℚ
  cumInterest : ℚ
  balance : ℚ
deriving DecidableEq

/-- `if (payment > balance + interest) payment = balance + interest`
(App.js line 136 / line 1425). -/
def clampedPayment (pay b i : ℚ) : ℚ := if pay > b + i then b + i else pay

/-- The balance update performed by one loop iteration:
`principalPaid = payment - interest; balance -= principalPaid`. -/
def nextBalance (r pay b : ℚ) : ℚ :=
  b - (clampedPayment pay b (b * r) - b * r)

/-- The schedule loop (`while (balance > 0 && period < periodCap)`,
App.js lines 132–148 / 1421–1439).  `fuel` is `periodCap - period`, the
number of iterations the `period < periodCap` guard still allows. -/
def scheduleLoop (r pay : ℚ) : ℕ → ℕ → ℚ → ℚ → List PeriodRecord
  | 0, _, _, _ => []
  | fuel + 1, period, b, cum =>
    if b ≤ 0 then []
    else
      let i := b * r
      let payment := clampedPayment pay b i
      let principalPaid := payment - i
      let b2 := b - principalPaid
      let cum2 := cum + i
      let row : PeriodRecord :=
        ⟨period + 1, round2 i, round2 cum2, round2 (max 0 b2)⟩
      if b2 ≤ 0 then [row]
      else row :: scheduleLoop r pay fuel (period + 1) b2 cum2

/-- The exact (pre-rounding, pre-flooring) balances the loop runs
through, one per emitted row. -/
def balanceTrace (r pay : ℚ) : ℕ → ℚ → List ℚ
  | 0, _ => []
  | fuel + 1, b =>
    if b ≤ 0 then []
    else
      let b2 := nextBalance r pay b
      if b2 ≤ 0 then [b2] else b2 :: balanceTrace r pay fuel b2

/-- The exact per-period interests (`balance * ratePerPeriod`) the loop
computes, one per emitted row. -/
def interestTrace (r pay : ℚ) : ℕ → ℚ → List ℚ
  | 0, _ => []
  | fuel + 1, b =>
    if b ≤ 0 then []
    else
      let b2 := nextBalance r pay b
      if b2 ≤ 0 then [b * r] else b * r :: interestTrace r pay fuel b2

/-- Running totals of a list, starting from `c`: the exact values the
loop's `cumInterest` accumulator takes. -/
def runningSums (c : ℚ) : List ℚ → List ℚ
  | [] => []
  | x :: xs => (c + x) :: runningSums (c + x) xs

/-- The engine's input parameters (the component state feeding the
`scheduleData` memo). -/
structure LoanInputs where
  remaining : ℚ
  oneTime : ℚ
  emi : ℚ
  annualRate : ℚ
  prepayment : ℚ
  periodsPerYear : ℚ
deriving DecidableEq

/-- `const periodCap = 500` (App.js line 118 / 1400). -/
def periodCap : ℕ := 500

/-- `Math.max(0, remaining - oneTime)` (App.js line 121 / 1403). -/
def initialBalance (p : LoanInputs) : ℚ := max 0 (p.remaining - p.oneTime)

/-- `annualRate / 100 / periodsPerYear` (App.js line 122 / 1404). -/
def ratePerPeriod (p : LoanInputs) : ℚ := p.annualRate / 100 / p.periodsPerYear

/-- `const paymentBase = emi * 12 / periodsPerYear` (App.js line 1410). -/
def paymentBase (p : LoanInputs) : ℚ := p.emi * 12 / p.periodsPerYear

/-- `const prepaymentPerPeriod = prepayment * 12 / periodsPerYear`
(App.js line 1414). -/
def prepaymentPerPeriod (p : LoanInputs) : ℚ :=
  p.prepayment * 12 / p.periodsPerYear

/-- `payment = paymentBase + prepaymentPerPeriod` (App.js line 1423). -/
def perPeriodPayment (p : LoanInputs) : ℚ :=
  paymentBase p + prepaymentPerPeriod p

/-- `const paymentBase = emi * (periodsPerYear / 12)` (App.js line 126). -/
def paymentBaseV1 (p : LoanInputs) : ℚ := p.emi * (p.periodsPerYear / 12)

/-- `payment = paymentBase + prepayment` (App.js line 135). -/
def perPeriodPaymentV1 (p : LoanInputs) : ℚ := paymentBaseV1 p + p.prepayment

/-- The `scheduleData` memo of the last revision (App.js lines
1402–1441). -/
def scheduleData (p : LoanInputs) : List PeriodRecord :=
  scheduleLoop (ratePerPeriod p) (perPeriodPayment p) periodCap 0
    (initialBalance p) 0

/-- The `scheduleData` memo of the first revision (App.js lines
120–149). -/
def scheduleDataV1 (p : LoanInputs) : List PeriodRecord :=
  scheduleLoop (ratePerPeriod p) (perPeriodPaymentV1 p) periodCap 0
    (initialBalance p) 0

/-- The insufficient-payment warning condition of the last revision:
`if (paymentBase < (balance * ratePerPeriod))` (App.js line 1416). -/
def emiWarning (p : LoanInputs) : Prop :=
  paymentBase p < initialBalance p * ratePerPeriod p

instance (p : LoanInputs) : Decidable (emiWarning p) := by
  unfold emiWarning; infer_instance

/-- The insufficient-payment warning condition of the first revision:
`if (emi < (balance * ratePerPeriod))` (App.js line 128). -/
def emiWarningV1 (p : LoanInputs) : Prop :=
  p.emi < initialBalance p * ratePerPeriod p

instance (p : LoanInputs) : Decidable (emiWarningV1 p) := by
  unfold emiWarningV1; infer_instance

/-- `const payoffPeriods = scheduleData.length` (App.js line 1443). -/
def payoffPeriods (p : LoanInputs) : ℕ := (scheduleData p).length

/-- `scheduleData.reduce((sum, r) => sum + r.interest, 0).toFixed(2)`
(App.js line 1444). -/
def totalInterest (p : LoanInputs) : ℚ :=
  round2 (((scheduleData p).map PeriodRecord.interest).sum)

/-- `const payoffPeriods = scheduleData.length` (App.js line 151). -/
def payoffPeriodsV1 (p : LoanInputs) : ℕ := (scheduleDataV1 p).length

/-- `scheduleData.reduce((sum, r) => sum + r.interest, 0).toFixed(2)`
(App.js line 152). -/
def totalInterestV1 (p : LoanInputs) : ℚ :=
  round2 (((scheduleDataV1 p).map PeriodRecord.interest).sum)

/-- `calculateEmi` (App.js lines 1022–1030).  Its only caller passes
`parseInt` of an integer slider as `years`, so `years : ℕ`. -/
def calculateEmi (principal rate : ℚ) (years : ℕ) : ℚ :=
  let monthlyRate := rate / 100 / 12
  let n : ℕ := years * 12
  if n = 0 then 0
  else if monthlyRate = 0 then round2 (principal / n)
  else
    let factor := (1 + monthlyRate) ^ n
    round2 (principal * monthlyRate * factor / (factor - 1))

/-! ## Structural lemmas about the loop -/

theorem scheduleLoop_nil (r pay cum : ℚ) {b : ℚ} (hb : b ≤ 0)
    (fuel period : ℕ) : scheduleLoop r pay fuel period b cum = [] := by
  cases fuel with
  | zero => rfl
  | succ m => simp only [scheduleLoop, if_pos hb]

theorem scheduleLoop_cons (r pay : ℚ) {b : ℚ} (cum : ℚ) (fuel period : ℕ)
    (hb : 0 < b) (hb2 : 0 < nextBalance r pay b) :
    scheduleLoop r pay (fuel + 1) period b cum =
      ⟨period + 1, round2 (b * r), round2 (cum + b * r),
          round2 (max 0 (nextBalance r pay b))⟩ ::
        scheduleLoop r pay fuel (period + 1) (nextBalance r pay b)
          (cum + b * r) := by
  simp only [scheduleLoop, nextBalance] at *
  rw [if_neg (not_le.2 hb), if_neg (not_le.2 hb2)]

theorem scheduleLoop_last (r pay : ℚ) {b : ℚ} (cum : ℚ) (fuel period : ℕ)
    (hb : 0 < b) (hb2 : nextBalance r pay b ≤ 0) :
    scheduleLoop r pay (fuel + 1) period b cum =
      [⟨period + 1, round2 (b * r), round2 (cum + b * r),
          round2 (max 0 (nextBalance r pay b))⟩] := by
  simp only [scheduleLoop, nextBalance] at *
  rw [if_neg (not_le.2 hb), if_pos hb2]

theorem scheduleLoop_length_le (r pay : ℚ) :
    ∀ (fuel period : ℕ) (b cum : ℚ),
      (scheduleLoop r pay fuel period b cum).length ≤ fuel := by
  intro fuel
  induction fuel with
  | zero => intro _ _ _; exact Nat.le_refl 0
  | succ m ih =>
    intro period b cum
    simp only [scheduleLoop]
    split_ifs with h1 h2
    · exact Nat.zero_le _
    · simp
    · simpa [Nat.succ_le_succ_iff] using ih (period + 1) _ _

/-! ## The emitted fields, expressed through the exact traces -/

theorem scheduleLoop_map_balance (r pay : ℚ) :
    ∀ (fuel period : ℕ) (b cum : ℚ),
      (scheduleLoop r pay fuel period b cum).map PeriodRecord.balance =
        (balanceTrace r pay fuel b).map (fun x => round2 (max 0 x)) := by
  intro fuel
  induction fuel with
  | zero => intro _ _ _; rfl
  | succ m ih =>
    intro period b cum
    simp only [scheduleLoop, balanceTrace, nextBalance]
    split_ifs with h1 h2
    · rfl
    · rfl
    · simpa using ih (period + 1) _ _

theorem scheduleLoop_map_interest (r pay : ℚ) :
    ∀ (fuel period : ℕ) (b cum : ℚ),
      (scheduleLoop r pay fuel period b cum).map PeriodRecord.interest =
        (interestTrace r pay fuel b).map round2 := by
  intro fuel
  induction fuel with
  | zero => intro _ _ _; rfl
  | succ m ih =>
    intro period b cum
    simp only [scheduleLoop, interestTrace, nextBalance]
    split_ifs with h1 h2
    · rfl
    · rfl
    · simpa using ih (period + 1) _ _

theorem scheduleLoop_map_cumInterest (r pay : ℚ) :
    ∀ (fuel period : ℕ) (b cum : ℚ),
      (scheduleLoop r pay fuel period b cum).map PeriodRecord.cumInterest =
        (runningSums cum (interestTrace r pay fuel b)).map round2 := by
  intro fuel
  induction fuel with
  | zero => intro _ _ _; rfl
  | succ m ih =>
    intro period b cum
    simp only [scheduleLoop, interestTrace, nextBalance]
    split_ifs with h1 h2
    · rfl
    · simp [runningSums]
    · simp only [List.map_cons, runningSums]
      exact congrArg _ (ih (period + 1) _ _)

/-! ## Clamping and sign facts about one iteration -/

theorem clampedPayment_le_add (pay b i : ℚ) : clampedPayment pay b i ≤ b + i := by
  unfold clampedPayment
  split_ifs with h
  · exact le_refl _
  · exact le_of_not_lt h

theorem clampedPayment_le (pay b i : ℚ) : clampedPayment pay b i ≤ pay := by
  unfold clampedPayment
  split_ifs with h
  · exact le_of_lt h
  · exact le_refl _

theorem clampedPayment_of_gt {pay b i : ℚ} (h : pay > b + i) :
    clampedPayment pay b i = b + i := if_pos h

theorem clampedPayment_of_le {pay b i : ℚ} (h : pay ≤ b + i) :
    clampedPayment pay b i = pay := if_neg (not_lt.2 h)

theorem nextBalance_nonneg (r pay b : ℚ) : 0 ≤ nextBalance r pay b := by
  unfold nextBalance
  have h := clampedPayment_le_add pay b (b * r)
  linarith

theorem balanceTrace_nonneg (r pay : ℚ) :
    ∀ (fuel : ℕ) (b : ℚ), ∀ x ∈ balanceTrace r pay fuel b, 0 ≤ x := by
  intro fuel
  induction fuel with
  | zero => intro b x hx; simp [balanceTrace] at hx
  | succ m ih =>
    intro b x hx
    simp only [balanceTrace] at hx
    split_ifs at hx with h1 h2
    · simp at hx
    · simp at hx
      exact hx ▸ nextBalance_nonneg r pay b
    · rcases List.mem_cons.1 hx with h | h
      · exact h ▸ nextBalance_nonneg r pay b
      · exact ih _ x h

/-! ## Strict decrease under a payment covering the interest -/

theorem nextBalance_lt {r pay b : ℚ} (hb : 0 < b) (hpay : b * r < pay) :
    nextBalance r pay b < b := by
  unfold nextBalance clampedPayment
  split_ifs with h
  · linarith
  · linarith

theorem balanceTrace_decr {r pay : ℚ} (hr : 0 ≤ r) :
    ∀ (fuel : ℕ) (b : ℚ), b * r < pay →
      List.Chain' (fun x y => x > y) (b :: balanceTrace r pay fuel b) ∧
        ∀ x ∈ balanceTrace r pay fuel b, x < b := by
  intro fuel
  induction fuel with
  | zero => intro b _; simp [balanceTrace]
  | succ m ih =>
    intro b hpay
    by_cases h1 : b ≤ 0
    · simp [balanceTrace, if_pos h1]
    push_neg at h1
    have hlt : nextBalance r pay b < b := nextBalance_lt h1 hpay
    have hnn : 0 ≤ nextBalance r pay b := nextBalance_nonneg r pay b
    have hpay2 : nextBalance r pay b * r ≤ b * r :=
      mul_le_mul_of_nonneg_right (le_of_lt hlt) hr
    have hnext := ih (nextBalance r pay b) (lt_of_le_of_lt hpay2 hpay)
    simp only [balanceTrace, if_neg (not_le.2 h1)]
    split_ifs with h2
    · constructor
      · exact List.chain'_cons.2 ⟨hlt, List.chain'_singleton _⟩
      · intro x hx; simp at hx; exact hx ▸ hlt
    · constructor
      · exact List.chain'_cons.2 ⟨hlt, hnext.1⟩
      · intro x hx
        rcases List.mem_cons.1 hx with h | h
        · exact h ▸ hlt
        · exact lt_trans (hnext.2 x h) hlt

/-! ## Strict growth under a payment below the interest -/

theorem nextBalance_gt {r pay b : ℚ} (hb : 0 < b) (hpay0 : 0 ≤ pay)
    (hpay : pay < b * r) : b < nextBalance r pay b := by
  have hbr : 0 < b * r := lt_of_le_of_lt hpay0 hpay
  have hle : pay ≤ b + b * r := by linarith
  unfold nextBalance
  rw [clampedPayment_of_le hle]
  linarith

theorem balanceTrace_grow {r pay : ℚ} (hpay0 : 0 ≤ pay) :
    ∀ (fuel : ℕ) (b : ℚ), 0 < b → pay < b * r →
      (balanceTrace r pay fuel b).length = fuel ∧
        ∀ x ∈ balanceTrace r pay fuel b, b < x := by
  intro fuel
  induction fuel with
  | zero => intro b _ _; simp [balanceTrace]
  | succ m ih =>
    intro b hb hpay
    have hr : 0 < r := by
      by_contra h
      push_neg at h
      have : b * r ≤ 0 := mul_nonpos_of_nonneg_of_nonpos (le_of_lt hb) h
      linarith
    have hgt : b < nextBalance r pay b := nextBalance_gt hb hpay0 hpay
    have hb2 : 0 < nextBalance r pay b := lt_trans hb hgt
    have hpay2 : pay < nextBalance r pay b * r :=
      lt_of_lt_of_le hpay
        (mul_le_mul_of_nonneg_right (le_of_lt hgt) (le_of_lt hr))
    have hnext := ih (nextBalance r pay b) hb2 hpay2
    simp only [balanceTrace, if_neg (not_le.2 hb), if_neg (not_le.2 hb2)]
    refine ⟨by simpa using hnext.1, ?_⟩
    intro x hx
    rcases List.mem_cons.1 hx with h | h
    · exact h ▸ hgt
    · exact lt_trans hgt (hnext.2 x h)

/-! ## Closed forms for the exact balance sequence -/

theorem nextBalance_of_le {r pay b : ℚ} (h : pay ≤ b + b * r) :
    nextBalance r pay b = b + b * r - pay := by
  unfold nextBalance
  rw [clampedPayment_of_le h]
  ring

theorem balanceTrace_geom {r pay : ℚ} (hpay0 : 0 ≤ pay) :
    ∀ (fuel : ℕ) (b : ℚ), 0 < b → pay < b * r →
      balanceTrace r pay fuel b =
        (List.range fuel).map
          (fun k => pay / r + (b - pay / r) * (1 + r) ^ (k + 1)) := by
  intro fuel
  induction fuel with
  | zero => intro b _ _; simp [balanceTrace]
  | succ m ih =>
    intro b hb hpay
    have hr : 0 < r := by
      by_contra h
      push_neg at h
      have : b * r ≤ 0 := mul_nonpos_of_nonneg_of_nonpos (le_of_lt hb) h
      linarith
    have hrne : r ≠ 0 := ne_of_gt hr
    have hgt : b < nextBalance r pay b := nextBalance_gt hb hpay0 hpay
    have hb2 : 0 < nextBalance r pay b := lt_trans hb hgt
    have hpay2 : pay < nextBalance r pay b * r :=
      lt_of_lt_of_le hpay
        (mul_le_mul_of_nonneg_right (le_of_lt hgt) (le_of_lt hr))
    have hnb : nextBalance r pay b = b + b * r - pay :=
      nextBalance_of_le (by nlinarith)
    simp only [balanceTrace, if_neg (not_le.2 hb), if_neg (not_le.2 hb2)]
    rw [ih (nextBalance r pay b) hb2 hpay2, List.range_succ_eq_map]
    simp only [List.map_cons, List.map_map]
    congr 1
    · rw [hnb]
      field_simp
      ring
    · apply List.map_congr_left
      intro k _
      simp only [Function.comp_apply, hnb]
      have hexp : (b + b * r - pay) - pay / r = (b - pay / r) * (1 + r) := by
        field_simp
        ring
      rw [hexp, Nat.succ_eq_add_one]
      ring

theorem balanceTrace_arith (pay : ℚ) (hpay : 0 < pay) :
    ∀ (fuel : ℕ) (b : ℚ), pay * fuel < b →
      balanceTrace 0 pay fuel b =
        (List.range fuel).map (fun k : ℕ => b - ((k : ℚ) + 1) * pay) := by
  intro fuel
  induction fuel with
  | zero => intro b _; rfl
  | succ m ih =>
    intro b hlt
    have hm : (0:ℚ) ≤ pay * m := by positivity
    have hcast : (((m : ℕ) + 1 : ℕ) : ℚ) = (m : ℚ) + 1 := by push_cast; ring
    have hb : 0 < b := by
      have : pay * ((m : ℚ) + 1) < b := by exact_mod_cast hlt
      nlinarith
    have hnb : nextBalance 0 pay b = b - pay := by
      rw [nextBalance_of_le (by nlinarith)]
      ring
    have hb2 : 0 < nextBalance 0 pay b := by
      rw [hnb]
      have : pay * ((m : ℚ) + 1) < b := by exact_mod_cast hlt
      nlinarith
    have htail : pay * (m : ℚ) < nextBalance 0 pay b := by
      rw [hnb]
      have : pay * ((m : ℚ) + 1) < b := by exact_mod_cast hlt
      nlinarith
    simp only [balanceTrace, if_neg (not_le.2 hb), if_neg (not_le.2 hb2)]
    rw [ih (nextBalance 0 pay b) (by exact_mod_cast htail), List.range_succ_eq_map]
    simp only [List.map_cons, List.map_map]
    congr 1
    · rw [hnb]; ring
    · apply List.map_congr_left
      intro k _
      simp only [Function.comp_apply, hnb]
      push_cast
      ring

/-! ## Zero-interest facts -/

theorem interestTrace_zero_rate (pay : ℚ) :
    ∀ (fuel : ℕ) (b : ℚ), ∀ x ∈ interestTrace 0 pay fuel b, x = 0 := by
  intro fuel
  induction fuel with
  | zero => intro b x hx; simp [interestTrace] at hx
  | succ m ih =>
    intro b x hx
    simp only [interestTrace] at hx
    split_ifs at hx with h1 h2
    · simp at hx
    · simp at hx; exact hx
    · rcases List.mem_cons.1 hx with h | h
      · rw [h, mul_zero]
      · exact ih _ x h

theorem runningSums_const (c : ℚ) :
    ∀ l : List ℚ, (∀ x ∈ l, x = 0) → ∀ y ∈ runningSums c l, y = c := by
  intro l
  induction l generalizing c with
  | nil => intro _ y hy; simp [runningSums] at hy
  | cons a t ih =>
    intro hz y hy
    have ha : a = 0 := hz a (List.mem_cons_self a t)
    simp only [runningSums, ha, add_zero] at hy
    rcases List.mem_cons.1 hy with h | h
    · exact h
    · exact ih c (fun x hx => hz x (List.mem_cons_of_mem a hx)) y h

/-! ## Rounding helpers -/

theorem round2_mono {x y : ℚ} (h : x ≤ y) : round2 x ≤ round2 y := by
  unfold round2
  have h1 : round (x * 100) ≤ round (y * 100) := by
    rw [round_eq, round_eq]
    exact Int.floor_le_floor (by linarith)
  have h2 : ((round (x * 100) : ℤ) : ℚ) ≤ ((round (y * 100) : ℤ) : ℚ) :=
    Int.cast_le.2 h1
  linarith

theorem round2_zero : round2 0 = 0 := by
  norm_num [round2]

/-! ## `getLastD` helpers -/

theorem getLastD_mem {α : Type} :
    ∀ (l : List α) (d : α), l ≠ [] → l.getLastD d ∈ l := by
  intro l
  induction l with
  | nil => intro d h; exact absurd rfl h
  | cons a t ih =>
    intro d _
    rw [List.getLastD_cons]
    cases t with
    | nil => simp [List.getLastD]
    | cons b u => exact List.mem_cons_of_mem a (ih a (by simp))

theorem getLastD_map {α β : Type} (f : α → β) :
    ∀ (l : List α) (d : α), (l.map f).getLastD (f d) = f (l.getLastD d) := by
  intro l
  induction l with
  | nil => intro d; rfl
  | cons a t ih =>
    intro d
    rw [List.map_cons, List.getLastD_cons, List.getLastD_cons]
    exact ih a

theorem getLastD_range_map {α : Type} (f : ℕ → α) (d : α) (n : ℕ) :
    ((List.range (n + 1)).map f).getLastD d = f n := by
  rw [List.range_succ, List.map_append]
  induction ((List.range n).map f) with
  | nil => rfl
  | cons a t ih =>
    rw [List.cons_append, List.getLastD_cons]
    cases t with
    | nil => simp_all
    | cons b u => simpa using ih

/-! ## Head of the schedule -/

theorem scheduleLoop_get_zero (r pay : ℚ) {b : ℚ} (hb : 0 < b)
    (hb2 : 0 < nextBalance r pay b) :
    (scheduleLoop r pay periodCap 0 b 0).get? 0 =
      some ⟨1, round2 (b * r), round2 (0 + b * r),
        round2 (max 0 (nextBalance r pay b))⟩ := by
  have hcap : periodCap = 499 + 1 := rfl
  rw [hcap, scheduleLoop_cons r pay 0 499 0 hb hb2]
  rfl

/-! ## Claim theorems -/

/-- C4 (confirmed): for every input the schedule computation returns at
most 500 records — the loop is bounded by `periodCap = 500` and, being
fuel recursion, always terminates.  Shown for both embedded revisions. -/
theorem C4_schedule_length_bounded (p : LoanInputs) :
    (scheduleData p).length ≤ periodCap ∧
      (scheduleDataV1 p).length ≤ periodCap ∧ periodCap = 500 :=
  ⟨scheduleLoop_length_le _ _ _ _ _ _,
    scheduleLoop_length_le _ _ _ _ _ _, rfl⟩

/-- C7 (confirmed): whenever `remainingPrincipal - oneTimePrepayment ≤ 0`
the starting balance is clamped to zero, the loop body never runs, the
returned sequence is empty, `payoffPeriods` is 0 and `totalInterest` is
0 — in both embedded revisions. -/
theorem C7_empty_schedule (p : LoanInputs)
    (h : p.remaining - p.oneTime ≤ 0) :
    scheduleData p = [] ∧ scheduleDataV1 p = [] ∧ payoffPeriods p = 0 ∧
      payoffPeriodsV1 p = 0 ∧ totalInterest p = 0 ∧
      totalInterestV1 p = 0 := by
  have hb : initialBalance p = 0 := by
    unfold initialBalance
    exact max_eq_left h
  have h1 : scheduleData p = [] := by
    unfold scheduleData
    rw [hb]
    exact scheduleLoop_nil _ _ _ le_rfl _ _
  have h2 : scheduleDataV1 p = [] := by
    unfold scheduleDataV1
    rw [hb]
    exact scheduleLoop_nil _ _ _ le_rfl _ _
  refine ⟨h1, h2, ?_, ?_, ?_, ?_⟩
  · unfold payoffPeriods; rw [h1]; rfl
  · unfold payoffPeriodsV1; rw [h2]; rfl
  · unfold totalInterest; rw [h1]; simpa using round2_zero
  · unfold totalInterestV1; rw [h2]; simpa using round2_zero

/-- Witness for C7: the spec scenario `remainingPrincipal = 10000`,
`oneTimePrepayment = 10000` yields the empty sequence and zero total
interest. -/
theorem C7_empty_schedule_witness :
    ((⟨10000, 10000, 100, 10, 0, 12⟩ : LoanInputs).remaining -
        (⟨10000, 10000, 100, 10, 0, 12⟩ : LoanInputs).oneTime ≤ 0) ∧
      scheduleData ⟨10000, 10000, 100, 10, 0, 12⟩ = [] ∧
      totalInterest ⟨10000, 10000, 100, 10, 0, 12⟩ = 0 :=
  ⟨by norm_num,
    (C7_empty_schedule _ (by norm_num)).1,
    (C7_empty_schedule _ (by norm_num)).2.2.2.2.1⟩

/-- C2 (confirmed, read on the exact loop state): when the per-period
payment exceeds `balance + interest` it is clamped to exactly
`balance + interest`; consequently every balance the loop produces is
nonnegative before the `Math.max(0, ·)` flooring, and the interest plus
the principal reduction of a period never exceeds the nominal payment.
The last conjunct ties the emitted (floored, rounded) balances of the
program's schedule to those exact loop balances. -/
theorem C2_final_period_clamp (r pay b i : ℚ) (fuel : ℕ) (p : LoanInputs)
    (h : pay > b + i) :
    clampedPayment pay b i = b + i ∧
      (∀ x ∈ balanceTrace r pay fuel b, 0 ≤ x) ∧
      b * r + (b - nextBalance r pay b) ≤ pay ∧
      (scheduleDataV1 p).map PeriodRecord.balance =
        (balanceTrace (ratePerPeriod p) (perPeriodPaymentV1 p) periodCap
          (initialBalance p)).map (fun x => round2 (max 0 x)) := by
  refine ⟨clampedPayment_of_gt h, balanceTrace_nonneg r pay fuel b, ?_, ?_⟩
  · have hle := clampedPayment_le pay b (b * r)
    unfold nextBalance
    linarith
  · exact scheduleLoop_map_balance _ _ _ _ _ _

/-- Witness for C2: with payment 5 against balance 1 and interest 1 the
clamp fires (5 > 1 + 1); with rate 0 and payment 2 from balance 1 the
single exact loop balance is 0, nonnegative before flooring. -/
theorem C2_final_period_clamp_witness :
    ((5 : ℚ) > 1 + 1) ∧
      (clampedPayment 5 1 1 = 1 + 1 ∧
        (∀ x ∈ balanceTrace 0 5 1 1, 0 ≤ x) ∧
        (1 : ℚ) * 0 + (1 - nextBalance 0 5 1) ≤ 5 ∧
        (scheduleDataV1 ⟨1, 0, 5, 0, 0, 12⟩).map PeriodRecord.balance =
          (balanceTrace (ratePerPeriod ⟨1, 0, 5, 0, 0, 12⟩)
              (perPeriodPaymentV1 ⟨1, 0, 5, 0, 0, 12⟩) periodCap
              (initialBalance ⟨1, 0, 5, 0, 0, 12⟩)).map
            (fun x => round2 (max 0 x))) :=
  ⟨by norm_num, C2_final_period_clamp 0 5 1 1 1 _ (by norm_num)⟩

/-- C1 (amended): the last-revision schedule computation scales the base
payment and the recurring prepayment by the same factor
`12 / paymentsPerYear` — its per-period payment is
`(emi + prepayment) * (12 / paymentsPerYear)`; the first revision
instead scales the base payment by `paymentsPerYear / 12` and adds the
recurring prepayment unnormalized. -/
theorem C1_consistent_normalization (p : LoanInputs) :
    perPeriodPayment p = (p.emi + p.prepayment) * (12 / p.periodsPerYear) ∧
      scheduleData p =
        scheduleLoop (ratePerPeriod p)
          ((p.emi + p.prepayment) * (12 / p.periodsPerYear)) periodCap 0
          (initialBalance p) 0 ∧
      perPeriodPaymentV1 p = p.emi * (p.periodsPerYear / 12) + p.prepayment := by
  have hpay : perPeriodPayment p =
      (p.emi + p.prepayment) * (12 / p.periodsPerYear) := by
    unfold perPeriodPayment paymentBase prepaymentPerPeriod
    ring
  refine ⟨hpay, ?_, rfl⟩
  unfold scheduleData
  rw [hpay]

/-- C1 counterexample: at weekly frequency
(`remaining = 100000`, `emi = 1200`, `annualRate = 12`,
`prepayment = 120`, `paymentsPerYear = 52`) the first-revision schedule
computation does not use the per-period amounts
`emi * 12 / paymentsPerYear` and `prepayment * 12 / paymentsPerYear`
asserted by the claim: its per-period payment is 5320 rather than
`1200 * 12 / 52 + 120 * 12 / 52`, and already the first emitted record
differs from the one the claimed normalization produces. -/
theorem C1_cex_v1_not_normalized :
    perPeriodPaymentV1 (⟨100000, 0, 1200, 12, 120, 52⟩ : LoanInputs) ≠
        (1200 : ℚ) * 12 / 52 + 120 * 12 / 52 ∧
      (scheduleDataV1 ⟨100000, 0, 1200, 12, 120, 52⟩).get? 0 ≠
        (scheduleLoop (ratePerPeriod ⟨100000, 0, 1200, 12, 120, 52⟩)
          ((1200 : ℚ) * 12 / 52 + 120 * 12 / 52) periodCap 0
          (initialBalance ⟨100000, 0, 1200, 12, 120, 52⟩) 0).get? 0 := by
  have hb : initialBalance ⟨100000, 0, 1200, 12, 120, 52⟩ = 100000 := by
    norm_num [initialBalance]
  have hr : ratePerPeriod ⟨100000, 0, 1200, 12, 120, 52⟩ = 3 / 1300 := by
    norm_num [ratePerPeriod]
  have hp1 : perPeriodPaymentV1 ⟨100000, 0, 1200, 12, 120, 52⟩ = 5320 := by
    norm_num [perPeriodPaymentV1, paymentBaseV1]
  have hle1 : (5320 : ℚ) ≤ 100000 + 100000 * (3 / 1300) := by norm_num
  have hn1 : nextBalance (3 / 1300) 5320 100000 = 1233840 / 13 := by
    rw [nextBalance_of_le hle1]
    norm_num
  have hle2 : (1200 : ℚ) * 12 / 52 + 120 * 12 / 52 ≤
      100000 + 100000 * (3 / 1300) := by norm_num
  have hn2 : nextBalance (3 / 1300) ((1200 : ℚ) * 12 / 52 + 120 * 12 / 52)
      100000 = 1299040 / 13 := by
    rw [nextBalance_of_le hle2]
    norm_num
  have hget1 := scheduleLoop_get_zero (3 / 1300) 5320 (b := 100000)
    (by norm_num) (by rw [hn1]; norm_num)
  rw [hn1] at hget1
  have hget2 := scheduleLoop_get_zero (3 / 1300)
    ((1200 : ℚ) * 12 / 52 + 120 * 12 / 52) (b := 100000)
    (by norm_num) (by rw [hn2]; norm_num)
  rw [hn2] at hget2
  have hne : round2 (max 0 ((1233840 : ℚ) / 13)) ≠
      round2 (max 0 ((1299040 : ℚ) / 13)) := by
    norm_num [round2, round_eq]
  constructor
  · rw [hp1]
    norm_num
  · intro h
    rw [show scheduleDataV1 ⟨100000, 0, 1200, 12, 120, 52⟩ =
          scheduleLoop (3 / 1300) 5320 periodCap 0 100000 0 from by
        unfold scheduleDataV1
        rw [hb, hr, hp1],
      hr, hb, hget1, hget2, Option.some.injEq,
      PeriodRecord.mk.injEq] at h
    exact hne h.2.2.2

theorem scheduleLoop_ne_nil (r pay cum : ℚ) {b : ℚ} (hb : 0 < b)
    (fuel period : ℕ) : scheduleLoop r pay (fuel + 1) period b cum ≠ [] := by
  simp only [scheduleLoop, if_neg (not_le.2 hb)]
  split_ifs <;> simp

/-- C8 (amended): in the last revision the insufficient-payment warning
fires exactly when the normalized base payment alone — the recurring
prepayment is not included — is below the first period's interest
`initialBalance * ratePerPeriod` (in the first revision, when the raw
monthly `emi` is below it); the condition is never fatal: with a
positive starting balance the schedule computation still returns a
non-empty sequence, warning or not. -/
theorem C8_warning_exact_condition (p : LoanInputs) :
    (emiWarning p ↔ paymentBase p < initialBalance p * ratePerPeriod p) ∧
      (emiWarningV1 p ↔ p.emi < initialBalance p * ratePerPeriod p) ∧
      (0 < initialBalance p →
        scheduleData p ≠ [] ∧ scheduleDataV1 p ≠ []) := by
  refine ⟨Iff.rfl, Iff.rfl, ?_⟩
  intro hb
  have hcap : periodCap = 499 + 1 := rfl
  constructor
  · unfold scheduleData
    rw [hcap]
    exact scheduleLoop_ne_nil _ _ _ hb _ _
  · unfold scheduleDataV1
    rw [hcap]
    exact scheduleLoop_ne_nil _ _ _ hb _ _

/-- C8 counterexample: with `emi = 0`, `prepayment = 1000`,
`remaining = 1000`, `annualRate = 12`, monthly frequency, the
last-revision warning fires (`paymentBase = 0 <` first-period interest
`10`) although the claim's condition is false — the full per-period
payment `paymentBase + prepaymentPerPeriod = 1000` is not below the
first period's interest. -/
theorem C8_cex_warning_ignores_prepayment :
    emiWarning ⟨1000, 0, 0, 12, 1000, 12⟩ ∧
      ¬(perPeriodPayment ⟨1000, 0, 0, 12, 1000, 12⟩ <
        initialBalance ⟨1000, 0, 0, 12, 1000, 12⟩ *
          ratePerPeriod ⟨1000, 0, 0, 12, 1000, 12⟩) := by
  constructor
  · unfold emiWarning
    norm_num [paymentBase, initialBalance, ratePerPeriod]
  · norm_num [perPeriodPayment, paymentBase, prepaymentPerPeriod,
      initialBalance, ratePerPeriod]

/-- Witness for C8: a positive starting balance gives a non-empty
schedule in both revisions. -/
theorem C8_warning_exact_condition_witness :
    (0 < initialBalance ⟨1000, 0, 500, 12, 0, 12⟩) ∧
      scheduleData ⟨1000, 0, 500, 12, 0, 12⟩ ≠ [] ∧
      scheduleDataV1 ⟨1000, 0, 500, 12, 0, 12⟩ ≠ [] :=
  ⟨by norm_num [initialBalance],
    ((C8_warning_exact_condition _).2.2 (by norm_num [initialBalance])).1,
    ((C8_warning_exact_condition _).2.2 (by norm_num [initialBalance])).2⟩

/-- C6 (amended): with a non-negative per-period rate and a per-period
payment above the first period's interest, the emitted `endingBalance`
fields are non-increasing, and the exact (pre-rounding) balances are
strictly decreasing until the loop stops; strictness can be lost on the
emitted fields only through the 2-decimal rounding. -/
theorem C6_balance_monotone (p : LoanInputs)
    (hr : 0 ≤ ratePerPeriod p)
    (h1 : initialBalance p * ratePerPeriod p < perPeriodPaymentV1 p) :
    List.Chain' (fun x y => x ≥ y)
        ((scheduleDataV1 p).map PeriodRecord.balance) ∧
      List.Chain' (fun x y => x > y)
        (initialBalance p :: balanceTrace (ratePerPeriod p)
          (perPeriodPaymentV1 p) periodCap (initialBalance p)) := by
  have hdec := balanceTrace_decr hr periodCap (initialBalance p) h1
  refine ⟨?_, hdec.1⟩
  have htail : List.Chain' (fun x y => x > y)
      (balanceTrace (ratePerPeriod p) (perPeriodPaymentV1 p) periodCap
        (initialBalance p)) := hdec.1.tail
  unfold scheduleDataV1
  rw [scheduleLoop_map_balance, List.chain'_map]
  exact htail.imp fun a b hab =>
    round2_mono (max_le_max le_rfl (le_of_lt hab))

/-- Witness for C6 at `remaining = 100`, `emi = 2`, `annualRate = 12`,
monthly frequency: the rate is non-negative and the payment 2 exceeds
the first period's interest 1. -/
theorem C6_balance_monotone_witness :
    (0 ≤ ratePerPeriod ⟨100, 0, 2, 12, 0, 12⟩) ∧
      (initialBalance ⟨100, 0, 2, 12, 0, 12⟩ *
          ratePerPeriod ⟨100, 0, 2, 12, 0, 12⟩ <
        perPeriodPaymentV1 ⟨100, 0, 2, 12, 0, 12⟩) ∧
      List.Chain' (fun x y => x ≥ y)
        ((scheduleDataV1 ⟨100, 0, 2, 12, 0, 12⟩).map
          PeriodRecord.balance) :=
  ⟨by norm_num [ratePerPeriod],
    by norm_num [initialBalance, ratePerPeriod, perPeriodPaymentV1,
      paymentBaseV1],
    (C6_balance_monotone _ (by norm_num [ratePerPeriod])
      (by norm_num [initialBalance, ratePerPeriod, perPeriodPaymentV1,
        paymentBaseV1])).1⟩

/-- C6 counterexample: at `remaining = 100`, `emi = 1.001`,
`annualRate = 12`, monthly frequency, the payment exceeds
`balance * ratePerPeriod` at every step (rate 0.01, payment 1.001,
balances never exceed 100), yet the first two emitted `endingBalance`
fields are both 100.00 — the exact balances 99.999 and 99.99799 round
to the same 2-decimal value, so the emitted sequence is not strictly
decreasing. -/
theorem C6_cex_rounded_balances_tie :
    (0 ≤ ratePerPeriod ⟨100, 0, 1001 / 1000, 12, 0, 12⟩) ∧
      (∀ x ∈ initialBalance ⟨100, 0, 1001 / 1000, 12, 0, 12⟩ ::
          balanceTrace (ratePerPeriod ⟨100, 0, 1001 / 1000, 12, 0, 12⟩)
            (perPeriodPaymentV1 ⟨100, 0, 1001 / 1000, 12, 0, 12⟩)
            periodCap (initialBalance ⟨100, 0, 1001 / 1000, 12, 0, 12⟩),
        x * ratePerPeriod ⟨100, 0, 1001 / 1000, 12, 0, 12⟩ <
          perPeriodPaymentV1 ⟨100, 0, 1001 / 1000, 12, 0, 12⟩) ∧
      ¬ List.Chain' (fun x y => x > y)
        ((scheduleDataV1 ⟨100, 0, 1001 / 1000, 12, 0, 12⟩).map
          PeriodRecord.balance) := by
  have hb : initialBalance ⟨100, 0, 1001 / 1000, 12, 0, 12⟩ = 100 := by
    norm_num [initialBalance]
  have hr : ratePerPeriod ⟨100, 0, 1001 / 1000, 12, 0, 12⟩ = 1 / 100 := by
    norm_num [ratePerPeriod]
  have hp : perPeriodPaymentV1 ⟨100, 0, 1001 / 1000, 12, 0, 12⟩ =
      1001 / 1000 := by
    norm_num [perPeriodPaymentV1, paymentBaseV1]
  have hr0 : (0 : ℚ) ≤ ratePerPeriod ⟨100, 0, 1001 / 1000, 12, 0, 12⟩ := by
    rw [hr]; norm_num
  have hinit : initialBalance ⟨100, 0, 1001 / 1000, 12, 0, 12⟩ *
      ratePerPeriod ⟨100, 0, 1001 / 1000, 12, 0, 12⟩ <
      perPeriodPaymentV1 ⟨100, 0, 1001 / 1000, 12, 0, 12⟩ := by
    rw [hb, hr, hp]; norm_num
  have hn1 : nextBalance (1 / 100) (1001 / 1000) 100 = 99999 / 1000 := by
    rw [nextBalance_of_le (by norm_num)]; norm_num
  have hn2 : nextBalance (1 / 100) (1001 / 1000) (99999 / 1000) =
      9999799 / 100000 := by
    rw [nextBalance_of_le (by norm_num)]; norm_num
  refine ⟨hr0, ?_, ?_⟩
  · intro x hx
    rcases List.mem_cons.1 hx with h | h
    · rw [h]; exact hinit
    · have hlt : x < initialBalance ⟨100, 0, 1001 / 1000, 12, 0, 12⟩ :=
        (balanceTrace_decr hr0 periodCap _ hinit).2 x h
      calc x * ratePerPeriod ⟨100, 0, 1001 / 1000, 12, 0, 12⟩ ≤
            initialBalance ⟨100, 0, 1001 / 1000, 12, 0, 12⟩ *
              ratePerPeriod ⟨100, 0, 1001 / 1000, 12, 0, 12⟩ :=
          mul_le_mul_of_nonneg_right (le_of_lt hlt) hr0
        _ < _ := hinit
  · intro hch
    rw [show scheduleDataV1 ⟨100, 0, 1001 / 1000, 12, 0, 12⟩ =
          scheduleLoop (1 / 100) (1001 / 1000) periodCap 0 100 0 from by
        unfold scheduleDataV1
        rw [hb, hr, hp],
      show periodCap = 498 + 1 + 1 from rfl,
      scheduleLoop_cons _ _ _ _ _ (by norm_num) (by rw [hn1]; norm_num),
      hn1,
      scheduleLoop_cons _ _ _ _ _ (by norm_num) (by rw [hn2]; norm_num),
      hn2, List.map_cons, List.map_cons] at hch
    have h12 := (List.chain'_cons.1 hch).1
    have : ¬(round2 (max 0 ((99999 : ℚ) / 1000)) >
        round2 (max 0 ((9999799 : ℚ) / 100000))) := by
      norm_num [round2, round_eq]
    exact this h12

/-- The 2-decimal rounding moves a value by at most 1/200 = 0.005. -/
theorem round2_close (x : ℚ) : |round2 x - x| ≤ 1 / 200 := by
  unfold round2
  have h := abs_sub_round (x * 100)
  rw [show (round (x * 100) : ℚ) / 100 - x =
      ((round (x * 100) : ℚ) - x * 100) / 100 by ring, abs_div]
  rw [show |(100 : ℚ)| = 100 from abs_of_pos (by norm_num)]
  rw [abs_sub_comm] at h
  linarith

/-- C3 (amended): each record's `cumulativeInterest` is the exact
running sum of the exact per-period interests, rounded once at emission
(hence within 0.005 of that exact sum, by `round2_close`); it is NOT in
general within 0.01 of the sum of the rounded `interestAccrued` fields
of the records, whose rounding errors can accumulate. -/
theorem C3_cumInterest_is_rounded_running_sum (p : LoanInputs) (k : ℕ) :
    ((scheduleData p).get? k).map PeriodRecord.cumInterest =
      ((runningSums 0 (interestTrace (ratePerPeriod p)
        (perPeriodPayment p) periodCap (initialBalance p))).get? k).map
        round2 ∧
    ((scheduleDataV1 p).get? k).map PeriodRecord.cumInterest =
      ((runningSums 0 (interestTrace (ratePerPeriod p)
        (perPeriodPaymentV1 p) periodCap (initialBalance p))).get? k).map
        round2 := by
  constructor
  · unfold scheduleData
    rw [← List.get?_map, scheduleLoop_map_cumInterest, List.get?_map]
  · unfold scheduleDataV1
    rw [← List.get?_map, scheduleLoop_map_cumInterest, List.get?_map]

/-- C3 counterexample: at `remaining = 1.51`, `emi = 0.0151`,
`annualRate = 12`, monthly frequency, the payment exactly equals the
interest, so every period accrues exact interest 0.0151 (rounded field
0.02).  At the 4th record `cumulativeInterest` is
`round2(4 * 0.0151) = 0.06`, while the sum of the four rounded
`interestAccrued` fields is 0.08 — they differ by 0.02 > 0.01. -/
theorem C3_cex_rounding_accumulates :
    ((scheduleDataV1 ⟨151 / 100, 0, 151 / 10000, 12, 0, 12⟩).get? 3).map
        PeriodRecord.cumInterest = some (6 / 100) ∧
      (((scheduleDataV1 ⟨151 / 100, 0, 151 / 10000, 12, 0, 12⟩).take 4).map
        PeriodRecord.interest).sum = 8 / 100 ∧
      ¬(|(6 : ℚ) / 100 - 8 / 100| ≤ 1 / 100) := by
  have hb : initialBalance ⟨151 / 100, 0, 151 / 10000, 12, 0, 12⟩ =
      151 / 100 := by norm_num [initialBalance]
  have hr : ratePerPeriod ⟨151 / 100, 0, 151 / 10000, 12, 0, 12⟩ =
      1 / 100 := by norm_num [ratePerPeriod]
  have hp : perPeriodPaymentV1 ⟨151 / 100, 0, 151 / 10000, 12, 0, 12⟩ =
      151 / 10000 := by norm_num [perPeriodPaymentV1, paymentBaseV1]
  have hn : nextBalance (1 / 100) (151 / 10000) (151 / 100) = 151 / 100 := by
    rw [nextBalance_of_le (by norm_num)]
    norm_num
  have h100 : (0 : ℚ) < 151 / 100 := by norm_num
  have hpos : 0 < nextBalance (1 / 100) (151 / 10000) (151 / 100) := by
    rw [hn]; norm_num
  have hsched : scheduleDataV1 ⟨151 / 100, 0, 151 / 10000, 12, 0, 12⟩ =
      scheduleLoop (1 / 100) (151 / 10000) periodCap 0 (151 / 100) 0 := by
    unfold scheduleDataV1
    rw [hb, hr, hp]
  refine ⟨?_, ?_, ?_⟩
  · rw [hsched, show periodCap = 496 + 1 + 1 + 1 + 1 from rfl,
      scheduleLoop_cons _ _ _ _ _ h100 hpos, hn,
      scheduleLoop_cons _ _ _ _ _ h100 hpos, hn,
      scheduleLoop_cons _ _ _ _ _ h100 hpos, hn,
      scheduleLoop_cons _ _ _ _ _ h100 hpos, hn]
    simp only [List.get?_cons_succ, List.get?_cons_zero, Option.map_some']
    norm_num [round2, round_eq]
  · rw [hsched, show periodCap = 496 + 1 + 1 + 1 + 1 from rfl,
      scheduleLoop_cons _ _ _ _ _ h100 hpos, hn,
      scheduleLoop_cons _ _ _ _ _ h100 hpos, hn,
      scheduleLoop_cons _ _ _ _ _ h100 hpos, hn,
      scheduleLoop_cons _ _ _ _ _ h100 hpos, hn]
    simp only [List.take_succ_cons, List.take_zero, List.map_cons,
      List.map_nil, List.sum_cons, List.sum_nil]
    norm_num [round2, round_eq]
  · rw [show |(6 : ℚ) / 100 - 8 / 100| = 2 / 100 from by
      rw [abs_of_nonpos (by norm_num)]; norm_num]
    norm_num

/-- C5 (amended): with a positive starting balance and a non-negative
per-period payment strictly below the first period's interest, the
schedule computation returns exactly 500 records and the exact final
balance strictly exceeds the initial balance; the final record's
`endingBalance` field is at least the rounded initial balance, but the
2-decimal rounding can make it equal to it when the total growth is
below the rounding step. -/
theorem C5_cutoff_and_growth (p : LoanInputs)
    (hb : 0 < initialBalance p)
    (hpay0 : 0 ≤ perPeriodPaymentV1 p)
    (hlt : perPeriodPaymentV1 p < initialBalance p * ratePerPeriod p) :
    (scheduleDataV1 p).length = periodCap ∧
      initialBalance p <
        (balanceTrace (ratePerPeriod p) (perPeriodPaymentV1 p) periodCap
          (initialBalance p)).getLastD (initialBalance p) ∧
      round2 (initialBalance p) ≤
        ((scheduleDataV1 p).map PeriodRecord.balance).getLastD
          (round2 (initialBalance p)) := by
  have hgrow := balanceTrace_grow hpay0 periodCap (initialBalance p) hb hlt
  have hne : balanceTrace (ratePerPeriod p) (perPeriodPaymentV1 p)
      periodCap (initialBalance p) ≠ [] := by
    intro h
    have := hgrow.1
    rw [h] at this
    simp [periodCap] at this
  have hlast : initialBalance p <
      (balanceTrace (ratePerPeriod p) (perPeriodPaymentV1 p) periodCap
        (initialBalance p)).getLastD (initialBalance p) :=
    hgrow.2 _ (getLastD_mem _ (initialBalance p) hne)
  have hmap := scheduleLoop_map_balance (ratePerPeriod p)
    (perPeriodPaymentV1 p) periodCap 0 (initialBalance p) 0
  refine ⟨?_, hlast, ?_⟩
  · unfold scheduleDataV1
    rw [← List.length_map _ PeriodRecord.balance, hmap, List.length_map,
      hgrow.1]
  · have hdef : round2 (max 0 (initialBalance p)) =
        round2 (initialBalance p) := by
      rw [max_eq_right (le_of_lt hb)]
    have hstep : ((scheduleDataV1 p).map PeriodRecord.balance).getLastD
        (round2 (initialBalance p)) =
        round2 (max 0 ((balanceTrace (ratePerPeriod p)
          (perPeriodPaymentV1 p) periodCap
          (initialBalance p)).getLastD (initialBalance p))) := by
      unfold scheduleDataV1
      rw [hmap, ← hdef]
      exact getLastD_map _ _ _
    rw [hstep]
    exact round2_mono (le_trans (le_of_lt hlast) (le_max_right _ _))

/-- C5 counterexample: at `remaining = 100`, `emi = 0.9999999`,
`annualRate = 12`, monthly frequency (payment 0.9999999 strictly below
the first period's interest 1) the schedule does run to exactly 500
records, but the balance grows only by about 0.0014 over the 500
periods, so the final record's rounded `endingBalance` is 100.00 — not
strictly greater than the initial balance 100, contradicting the claim. -/
theorem C5_cex_growth_hidden_by_rounding :
    (0 < initialBalance ⟨100, 0, 9999999 / 10000000, 12, 0, 12⟩) ∧
      (0 ≤ perPeriodPaymentV1 ⟨100, 0, 9999999 / 10000000, 12, 0, 12⟩) ∧
      (perPeriodPaymentV1 ⟨100, 0, 9999999 / 10000000, 12, 0, 12⟩ <
        initialBalance ⟨100, 0, 9999999 / 10000000, 12, 0, 12⟩ *
          ratePerPeriod ⟨100, 0, 9999999 / 10000000, 12, 0, 12⟩) ∧
      (scheduleDataV1 ⟨100, 0, 9999999 / 10000000, 12, 0, 12⟩).length =
        periodCap ∧
      ¬(initialBalance ⟨100, 0, 9999999 / 10000000, 12, 0, 12⟩ <
        ((scheduleDataV1 ⟨100, 0, 9999999 / 10000000, 12, 0,
          12⟩).map PeriodRecord.balance).getLastD 0) := by
  have hb : initialBalance ⟨100, 0, 9999999 / 10000000, 12, 0, 12⟩ =
      100 := by norm_num [initialBalance]
  have hr : ratePerPeriod ⟨100, 0, 9999999 / 10000000, 12, 0, 12⟩ =
      1 / 100 := by norm_num [ratePerPeriod]
  have hp : perPeriodPaymentV1 ⟨100, 0, 9999999 / 10000000, 12, 0, 12⟩ =
      9999999 / 10000000 := by
    norm_num [perPeriodPaymentV1, paymentBaseV1]
  have hsched : scheduleDataV1 ⟨100, 0, 9999999 / 10000000, 12, 0, 12⟩ =
      scheduleLoop (1 / 100) (9999999 / 10000000) periodCap 0 100 0 := by
    unfold scheduleDataV1
    rw [hb, hr, hp]
  have hgeom := @balanceTrace_geom (1 / 100) (9999999 / 10000000)
    (by norm_num) periodCap 100 (by norm_num) (by norm_num)
  have hmap := scheduleLoop_map_balance (1 / 100) (9999999 / 10000000)
    periodCap 0 100 0
  have hfin : ((scheduleDataV1 ⟨100, 0, 9999999 / 10000000, 12, 0,
      12⟩).map PeriodRecord.balance).getLastD 0 = 100 := by
    rw [hsched, hmap, hgeom, List.map_map,
      show periodCap = 499 + 1 from rfl, getLastD_range_map]
    norm_num [Function.comp, round2, round_eq]
  refine ⟨by rw [hb]; norm_num, by rw [hp]; norm_num, ?_, ?_, ?_⟩
  · rw [hb, hr, hp]
    norm_num
  · rw [hsched, ← List.length_map _ PeriodRecord.balance, hmap, hgeom,
      List.length_map, List.length_map, List.length_range]
  · rw [hfin, hb]
    norm_num

/-- Witness for C5 at `remaining = 100`, `emi = 0.5`, `annualRate = 12`,
monthly frequency: payment 0.5 is below the first period's interest 1. -/
theorem C5_cutoff_and_growth_witness :
    (0 < initialBalance ⟨100, 0, 1 / 2, 12, 0, 12⟩) ∧
      (0 ≤ perPeriodPaymentV1 ⟨100, 0, 1 / 2, 12, 0, 12⟩) ∧
      (perPeriodPaymentV1 ⟨100, 0, 1 / 2, 12, 0, 12⟩ <
        initialBalance ⟨100, 0, 1 / 2, 12, 0, 12⟩ *
          ratePerPeriod ⟨100, 0, 1 / 2, 12, 0, 12⟩) ∧
      (scheduleDataV1 ⟨100, 0, 1 / 2, 12, 0, 12⟩).length = periodCap :=
  ⟨by norm_num [initialBalance],
    by norm_num [perPeriodPaymentV1, paymentBaseV1],
    by norm_num [initialBalance, ratePerPeriod, perPeriodPaymentV1,
      paymentBaseV1],
    (C5_cutoff_and_growth _ (by norm_num [initialBalance])
      (by norm_num [perPeriodPaymentV1, paymentBaseV1])
      (by norm_num [initialBalance, ratePerPeriod, perPeriodPaymentV1,
        paymentBaseV1])).1⟩

theorem balanceTrace_chain_zero_rate (pay : ℚ) :
    ∀ (fuel : ℕ) (b : ℚ),
      List.Chain' (fun x y => y = x - clampedPayment pay x 0)
        (b :: balanceTrace 0 pay fuel b) := by
  intro fuel
  induction fuel with
  | zero => intro b; simp [balanceTrace]
  | succ m ih =>
    intro b
    have hnb : nextBalance 0 pay b = b - clampedPayment pay b 0 := by
      unfold nextBalance
      rw [mul_zero]
      ring
    by_cases h1 : b ≤ 0
    · simp [balanceTrace, if_pos h1]
    simp only [balanceTrace, if_neg h1]
    split_ifs with h2
    · exact List.chain'_cons.2 ⟨hnb.symm ▸ rfl, List.chain'_singleton _⟩
    · exact List.chain'_cons.2 ⟨by rw [hnb], ih (nextBalance 0 pay b)⟩

/-- C10 (amended): with a zero annual rate every emitted record has
`interestAccrued = 0` and `cumulativeInterest = 0`, each period the
exact balance decreases by exactly the clamped payment, and the total
interest is 0.  The loan need not pay off, however: with a positive
per-period payment the balance still falls only by that payment per
period, and the 500-period cap can cut the schedule short of zero. -/
theorem C10_zero_rate_no_interest (p : LoanInputs)
    (h : p.annualRate = 0) :
    (∀ row ∈ scheduleDataV1 p, row.interest = 0 ∧ row.cumInterest = 0) ∧
      List.Chain'
        (fun x y => y = x - clampedPayment (perPeriodPaymentV1 p) x 0)
        (initialBalance p :: balanceTrace (ratePerPeriod p)
          (perPeriodPaymentV1 p) periodCap (initialBalance p)) ∧
      totalInterestV1 p = 0 := by
  have hr : ratePerPeriod p = 0 := by
    unfold ratePerPeriod
    rw [h]
    simp
  have hint : ∀ x ∈ interestTrace 0 (perPeriodPaymentV1 p) periodCap
      (initialBalance p), x = 0 :=
    interestTrace_zero_rate _ _ _
  have hmapi : (scheduleDataV1 p).map PeriodRecord.interest =
      (interestTrace 0 (perPeriodPaymentV1 p) periodCap
        (initialBalance p)).map round2 := by
    unfold scheduleDataV1
    rw [hr]
    exact scheduleLoop_map_interest _ _ _ _ _ _
  refine ⟨?_, ?_, ?_⟩
  · intro row hrow
    constructor
    · have h1 : row.interest ∈
          (scheduleDataV1 p).map PeriodRecord.interest :=
        List.mem_map_of_mem _ hrow
      rw [hmapi] at h1
      rcases List.mem_map.1 h1 with ⟨x, hx, hxe⟩
      rw [← hxe, hint x hx, round2_zero]
    · have h1 : row.cumInterest ∈
          (scheduleDataV1 p).map PeriodRecord.cumInterest :=
        List.mem_map_of_mem _ hrow
      rw [show (scheduleDataV1 p).map PeriodRecord.cumInterest =
          (runningSums 0 (interestTrace 0 (perPeriodPaymentV1 p)
            periodCap (initialBalance p))).map round2 from by
        unfold scheduleDataV1
        rw [hr]
        exact scheduleLoop_map_cumInterest _ _ _ _ _ _] at h1
      rcases List.mem_map.1 h1 with ⟨x, hx, hxe⟩
      rw [← hxe, runningSums_const 0 _ hint x hx, round2_zero]
  · rw [hr]
    exact balanceTrace_chain_zero_rate _ _ _
  · unfold totalInterestV1
    rw [hmapi]
    rw [List.sum_eq_zero, round2_zero]
    intro y hy
    rcases List.mem_map.1 hy with ⟨x, hx, hxe⟩
    rw [← hxe, hint x hx, round2_zero]

/-- C10 counterexample: with `remaining = 1000000`, `emi = 1`,
`annualRate = 0`, monthly frequency, the per-period payment is the
positive 1, yet after the 500-period cap the final `endingBalance` is
999500, not 0 — the loan does not pay off. -/
theorem C10_cex_no_payoff :
    (⟨1000000, 0, 1, 0, 0, 12⟩ : LoanInputs).annualRate = 0 ∧
      0 < perPeriodPaymentV1 ⟨1000000, 0, 1, 0, 0, 12⟩ ∧
      (scheduleDataV1 ⟨1000000, 0, 1, 0, 0, 12⟩).length = periodCap ∧
      ((scheduleDataV1 ⟨1000000, 0, 1, 0, 0, 12⟩).map
        PeriodRecord.balance).getLastD 0 = 999500 ∧
      (999500 : ℚ) ≠ 0 := by
  have hb : initialBalance ⟨1000000, 0, 1, 0, 0, 12⟩ = 1000000 := by
    norm_num [initialBalance]
  have hr : ratePerPeriod ⟨1000000, 0, 1, 0, 0, 12⟩ = 0 := by
    norm_num [ratePerPeriod]
  have hp : perPeriodPaymentV1 ⟨1000000, 0, 1, 0, 0, 12⟩ = 1 := by
    norm_num [perPeriodPaymentV1, paymentBaseV1]
  have hsched : scheduleDataV1 ⟨1000000, 0, 1, 0, 0, 12⟩ =
      scheduleLoop 0 1 periodCap 0 1000000 0 := by
    unfold scheduleDataV1
    rw [hb, hr, hp]
  have harith := balanceTrace_arith 1 (by norm_num) periodCap 1000000
    (by norm_num [periodCap])
  have hmap := scheduleLoop_map_balance 0 1 periodCap 0 1000000 0
  refine ⟨rfl, by rw [hp]; norm_num, ?_, ?_, by norm_num⟩
  · rw [hsched, ← List.length_map _ PeriodRecord.balance, hmap, harith,
      List.length_map, List.length_map, List.length_range]
  · rw [hsched, hmap, harith, List.map_map,
      show periodCap = 499 + 1 from rfl, getLastD_range_map]
    norm_num [Function.comp, round2, round_eq]

/-- Witness for C10 at `remaining = 100`, `emi = 10`, `annualRate = 0`:
the schedule accrues zero total interest. -/
theorem C10_zero_rate_no_interest_witness :
    (⟨100, 0, 10, 0, 0, 12⟩ : LoanInputs).annualRate = 0 ∧
      totalInterestV1 ⟨100, 0, 10, 0, 0, 12⟩ = 0 :=
  ⟨rfl, (C10_zero_rate_no_interest _ rfl).2.2⟩

/-- C9 (amended): `calculateEmi` returns 0 when `years * 12 = 0`,
`principal / (years * 12)` rounded to 2 decimals when the monthly rate
is 0, and otherwise the closed-form annuity value
`P * mr * (1+mr)^n / ((1+mr)^n - 1)` rounded to 2 decimals — but the
concrete value is `calculateEmi 1200000 9 20 = 10796.71`, not the
10796.97 asserted by the claim. -/
theorem C9_calculateEmi_closed_form (P r : ℚ) (y : ℕ) :
    (y = 0 → calculateEmi P r y = 0) ∧
      (y ≠ 0 → r = 0 → calculateEmi P r y =
        round2 (P / ((y * 12 : ℕ) : ℚ))) ∧
      (y ≠ 0 → r ≠ 0 → calculateEmi P r y =
        round2 (P * (r / 100 / 12) * (1 + r / 100 / 12) ^ (y * 12) /
          ((1 + r / 100 / 12) ^ (y * 12) - 1))) ∧
      calculateEmi 1200000 9 20 = 1079671 / 100 := by
  refine ⟨?_, ?_, ?_, ?_⟩
  · intro hy
    subst hy
    rfl
  · intro hy hrate
    subst hrate
    unfold calculateEmi
    rw [if_neg (Nat.mul_ne_zero hy (by norm_num)), if_pos (by norm_num)]
  · intro hy hrate
    have hmr : r / 100 / 12 ≠ 0 :=
      div_ne_zero (div_ne_zero hrate (by norm_num)) (by norm_num)
    unfold calculateEmi
    rw [if_neg (Nat.mul_ne_zero hy (by norm_num)), if_neg hmr]
  · norm_num [calculateEmi, round2, round_eq]

/-- C9 counterexample: the code's EMI for principal 1200000, rate 9,
20 years is 10796.71; the claim's asserted value 10796.97 is off by
0.26, far beyond rounding tolerance. -/
theorem C9_cex_spec_value :
    calculateEmi 1200000 9 20 = 1079671 / 100 ∧
      ¬(|calculateEmi 1200000 9 20 - 1079697 / 100| ≤ 1 / 100) := by
  have h : calculateEmi 1200000 9 20 = 1079671 / 100 := by
    norm_num [calculateEmi, round2, round_eq]
  refine ⟨h, ?_⟩
  rw [h, show |(1079671 : ℚ) / 100 - 1079697 / 100| = 26 / 100 from by
    rw [abs_of_nonpos (by norm_num)]
    norm_num]
  norm_num

/-- Witness for C9: one instance of each branch of the case analysis. -/
theorem C9_calculateEmi_closed_form_witness :
    calculateEmi 3 7 0 = 0 ∧
      calculateEmi 240 0 1 = round2 (240 / ((1 * 12 : ℕ) : ℚ)) ∧
      calculateEmi 1200 12 1 =
        round2 (1200 * ((12 : ℚ) / 100 / 12) *
          (1 + (12 : ℚ) / 100 / 12) ^ (1 * 12) /
          ((1 + (12 : ℚ) / 100 / 12) ^ (1 * 12) - 1)) :=
  ⟨(C9_calculateEmi_closed_form 3 7 0).1 rfl,
    (C9_calculateEmi_closed_form 240 0 1).2.1 (by norm_num) rfl,
    (C9_calculateEmi_closed_form 1200 12 1).2.2.1 (by norm_num)
      (by norm_num)⟩
